import Mathlib

/-!
Verification of the MAApp AniList release browser.

Shallow embedding of the Python sources:
  * `app/models.py`   — `MediaItem`, `publication_day`, `key_date`
  * `app/utils.py`    — `COUNTRY_MAP`, `yyyymmdd_int`
  * `app/anilist.py`  — `AniListClient.fetch_new` (HTTP/GraphQL handling and
    per-item JSON mapping)
  * `app/workers.py`  — `FetchWorker.run` (abort checkpoints, dedup, sort)
  * `app/cache.py`    — `ImageCache.get` / `ImageCache.request`

Dates model Python `datetime.date`: a triple (year, month, day) compared
lexicographically.  Strings are compared as Python compares `str`:
lexicographically by code point (`Char.toNat`).
-/

/-- Calendar date, as Python `datetime.date`: ordered lexicographically on
(year, month, day). -/
structure Date where
  year : Nat
  month : Nat
  day : Nat
deriving DecidableEq, Repr

/-- Strict comparison of dates, lexicographic on (year, month, day), as
Python compares two `datetime.date` values with `<`. -/
def dateLtb (a b : Date) : Bool :=
  a.year < b.year ||
    (a.year = b.year && (a.month < b.month || (a.month = b.month && a.day < b.day)))

/-- Non-strict comparison of dates, as Python `<=` on `datetime.date`. -/
def dateLeb (a b : Date) : Bool :=
  a.year < b.year ||
    (a.year = b.year && (a.month < b.month || (a.month = b.month && a.day ≤ b.day)))

theorem dateLtb_or_eq_or_gt (a b : Date) :
    dateLtb a b = true ∨ a = b ∨ dateLtb b a = true := by
  cases a with
  | mk ay am ad =>
    cases b with
    | mk by' bm bd =>
      simp only [dateLtb, Date.mk.injEq, Bool.or_eq_true, Bool.and_eq_true,
        decide_eq_true_eq]
      omega

theorem dateLtb_trans {a b c : Date} (h1 : dateLtb a b = true)
    (h2 : dateLtb b c = true) : dateLtb a c = true := by
  simp only [dateLtb, Bool.or_eq_true, Bool.and_eq_true, decide_eq_true_eq] at *
  omega

theorem dateLtb_asymm {a b : Date} (h : dateLtb a b = true) :
    dateLtb b a = false := by
  simp only [dateLtb, Bool.or_eq_true, Bool.and_eq_true, decide_eq_true_eq,
    Bool.eq_false_iff, ne_eq] at *
  omega

theorem dateLtb_irrefl (a : Date) : dateLtb a a = false := by
  simp only [dateLtb, Bool.or_eq_true, Bool.and_eq_true, decide_eq_true_eq,
    Bool.eq_false_iff, ne_eq]
  omega

theorem dateLeb_iff_not_gt {a b : Date} :
    dateLeb a b = true ↔ dateLtb b a = false := by
  simp only [dateLeb, dateLtb, Bool.or_eq_true, Bool.and_eq_true,
    decide_eq_true_eq, Bool.eq_false_iff, ne_eq]
  constructor
  · intro h
    omega
  · intro h
    omega

/-- Strict code-point comparison of characters (Python `<` on one-char strings). -/
def charLtb (a b : Char) : Bool :=
  a.toNat < b.toNat

/-- Strict lexicographic comparison of character lists, as Python compares
`str` with `<`. -/
def charListLtb : List Char → List Char → Bool
  | [], [] => false
  | [], _ :: _ => true
  | _ :: _, [] => false
  | a :: as, b :: bs => charLtb a b || (a.toNat = b.toNat && charListLtb as bs)

/-- Non-strict lexicographic comparison of character lists (Python `<=`). -/
def charListLeb : List Char → List Char → Bool
  | [], _ => true
  | _ :: _, [] => false
  | a :: as, b :: bs => charLtb a b || (a.toNat = b.toNat && charListLeb as bs)

theorem charListLeb_iff_not_gt :
    ∀ x y : List Char, charListLeb x y = true ↔ charListLtb y x = false
  | [], [] => by simp [charListLeb, charListLtb]
  | [], _ :: _ => by simp [charListLeb, charListLtb]
  | _ :: _, [] => by simp [charListLeb, charListLtb]
  | a :: as, b :: bs => by
    simp only [charListLeb, charListLtb, charLtb, Bool.or_eq_true,
      Bool.and_eq_true, decide_eq_true_eq, Bool.or_eq_false_iff,
      Bool.and_eq_false_iff, decide_eq_false_iff_not, ne_eq]
    rw [charListLeb_iff_not_gt as bs]
    constructor
    · rintro (h | ⟨he, h⟩)
      · exact ⟨by omega, .inl (by omega)⟩
      · exact ⟨by omega, .inr h⟩
    · rintro ⟨h1, h2 | h2⟩
      · left
        omega
      · by_cases he : a.toNat = b.toNat
        · exact .inr ⟨he, h2⟩
        · left
          omega

theorem charListLtb_trans :
    ∀ {x y z : List Char}, charListLtb x y = true → charListLtb y z = true →
      charListLtb x z = true
  | [], [], _, h1, _ => by simp [charListLtb] at h1
  | [], _ :: _, [], _, h2 => by simp [charListLtb] at h2
  | [], _ :: _, _ :: _, _, _ => by simp [charListLtb]
  | _ :: _, [], _, h1, _ => by simp [charListLtb] at h1
  | _ :: _, _ :: _, [], _, h2 => by simp [charListLtb] at h2
  | a :: as, b :: bs, c :: cs, h1, h2 => by
    simp only [charListLtb, charLtb, Bool.or_eq_true, Bool.and_eq_true,
      decide_eq_true_eq] at *
    rcases h1 with h1 | ⟨he1, h1⟩
    · rcases h2 with h2 | ⟨he2, h2⟩
      · left
        omega
      · left
        omega
    · rcases h2 with h2 | ⟨he2, h2⟩
      · left
        omega
      · exact .inr ⟨by omega, charListLtb_trans h1 h2⟩

/-- Python `a < b` on strings. -/
def strLtb (a b : String) : Bool :=
  charListLtb a.data b.data

/-- Python `a <= b` on strings. -/
def strLeb (a b : String) : Bool :=
  charListLeb a.data b.data

theorem strLeb_iff_not_gt {a b : String} :
    strLeb a b = true ↔ strLtb b a = false :=
  charListLeb_iff_not_gt a.data b.data

theorem strLtb_trans {a b c : String} (h1 : strLtb a b = true)
    (h2 : strLtb b c = true) : strLtb a c = true :=
  charListLtb_trans h1 h2

/-- Zero-pad a number to two digits (for `datetime.date.isoformat`). -/
def pad2 (n : Nat) : String :=
  if n < 10 then "0" ++ toString n else toString n

/-- Zero-pad a number to four digits (for `datetime.date.isoformat`). -/
def pad4 (n : Nat) : String :=
  if n < 10 then "000" ++ toString n
  else if n < 100 then "00" ++ toString n
  else if n < 1000 then "0" ++ toString n
  else toString n

/-- Python `datetime.date.isoformat`: "YYYY-MM-DD". -/
def Date.isoformat (d : Date) : String :=
  pad4 d.year ++ "-" ++ pad2 d.month ++ "-" ++ pad2 d.day

/-- The record of `app/models.py` (`@dataclass MediaItem`).  The
`description` field (HTML-stripped free text produced by
`utils.clean_text`, regex based) is not modelled: no claim concerns its
content. -/
structure MediaItem where
  id : Nat
  media_type : String
  title : String
  title_native : String
  image_url : String
  country_code : String
  country : String
  language : String
  start_date : Option Date
  format : String
  status : String
  site_url : String
deriving DecidableEq, Repr

/-- Embeds `MediaItem.publication_day` (models.py lines 23-25):
`self.start_date.isoformat() if self.start_date else "Unknown"`. -/
def MediaItem.publication_day (x : MediaItem) : String :=
  match x.start_date with
  | some d => d.isoformat
  | none => "Unknown"

/-- Embeds `MediaItem.key_date` (models.py lines 27-29):
`self.start_date if self.start_date else dt.date(1900, 1, 1)`. -/
def MediaItem.key_date (x : MediaItem) : Date :=
  match x.start_date with
  | some d => d
  | none => ⟨1900, 1, 1⟩

/-- Embeds `COUNTRY_MAP` of `app/utils.py`: country code → (country, language). -/
def COUNTRY_MAP : List (String × String × String) :=
  [("JPN", "Japan", "Japanese"),
   ("KOR", "South Korea", "Korean"),
   ("CHN", "China", "Chinese"),
   ("TWN", "Taiwan", "Chinese"),
   ("USA", "United States", "English"),
   ("CAN", "Canada", "English"),
   ("GBR", "United Kingdom", "English"),
   ("AUS", "Australia", "English"),
   ("FRA", "France", "French"),
   ("DEU", "Germany", "German"),
   ("ESP", "Spain", "Spanish"),
   ("ITA", "Italy", "Italian"),
   ("BRA", "Brazil", "Portuguese"),
   ("MEX", "Mexico", "Spanish"),
   ("RUS", "Russia", "Russian"),
   ("IND", "India", "Hindi"),
   ("PHL", "Philippines", "Filipino"),
   ("THA", "Thailand", "Thai"),
   ("VNM", "Vietnam", "Vietnamese")]

/-- Python dict lookup `COUNTRY_MAP.get(cc)` (no default). -/
def countryLookup (cc : String) : Option (String × String) :=
  (COUNTRY_MAP.find? (fun e => e.1 = cc)).map (fun e => e.2)

/-- Embeds `COUNTRY_MAP.get(cc, (cc or "Unknown", "Unknown"))` (anilist.py line 75). -/
def countryLang (cc : String) : String × String :=
  match countryLookup cc with
  | some p => p
  | none => (if cc = "" then "Unknown" else cc, "Unknown")

/-- Embeds `yyyymmdd_int` of `app/utils.py`: `d.year * 10000 + d.month * 100 + d.day`. -/
def yyyymmdd_int (d : Date) : Nat :=
  d.year * 10000 + d.month * 100 + d.day

/-- Python truthiness filter on an optional string: `None` and `""` are falsy. -/
def truthyS : Option String → Option String
  | none => none
  | some s => if s = "" then none else some s

/-- Python truthiness filter on an optional integer: `None` and `0` are falsy. -/
def truthyN : Option Nat → Option Nat
  | none => none
  | some n => if n = 0 then none else some n

/-- JSON object `title { romaji english native }` of an AniList media entry. -/
structure ApiTitle where
  romaji : Option String
  english : Option String
  native : Option String
deriving DecidableEq, Repr

/-- JSON object `startDate { year month day }` of an AniList media entry. -/
structure ApiFuzzyDate where
  year : Option Nat
  month : Option Nat
  day : Option Nat
deriving DecidableEq, Repr

/-- JSON object `coverImage { large medium }` of an AniList media entry. -/
structure ApiCover where
  large : Option String
  medium : Option String
deriving DecidableEq, Repr

/-- One entry of `data.Page.media[]` in the AniList GraphQL response;
absent JSON keys are `none`. -/
structure ApiMedia where
  id : Option Nat
  type : Option String
  format : Option String
  status : Option String
  title : Option ApiTitle
  startDate : Option ApiFuzzyDate
  countryOfOrigin : Option String
  siteUrl : Option String
  coverImage : Option ApiCover
deriving DecidableEq, Repr

/-- Gregorian leap year, as validated by Python `datetime.date`. -/
def isLeap (y : Nat) : Bool :=
  (y % 4 = 0 && y % 100 ≠ 0) || y % 400 = 0

/-- Days in a month, as validated by Python `datetime.date`. -/
def daysInMonth (y m : Nat) : Nat :=
  if m = 2 then (if isLeap y then 29 else 28)
  else if m = 4 ∨ m = 6 ∨ m = 9 ∨ m = 11 then 30
  else 31

/-- The `dt.date(y, m, d)` constructor: `some` on a valid Gregorian date
(year 1..9999), `none` when it would raise (caught by the
`try/except` in anilist.py lines 78-84). -/
def mkValidDate (y m d : Nat) : Option Date :=
  if 1 ≤ y && y ≤ 9999 && 1 ≤ m && m ≤ 12 && 1 ≤ d && d ≤ daysInMonth y m then
    some ⟨y, m, d⟩
  else none

/-- anilist.py lines 77-84: `sd = m.get("startDate") or {}`; the date is
built only when year, month and day are all present and truthy, and the
`dt.date` constructor succeeds; otherwise `None`. -/
def parseStartDate : Option ApiFuzzyDate → Option Date
  | none => none
  | some f =>
    match truthyN f.year, truthyN f.month, truthyN f.day with
    | some y, some m, some d => mkValidDate y m d
    | _, _, _ => none

/-- The per-item mapping of anilist.py lines 64-102: one JSON media entry to
a `MediaItem`. -/
def mediaToItem (media_type : String) (m : ApiMedia) : MediaItem :=
  let tb := m.title.getD ⟨none, none, none⟩
  let title := ((truthyS tb.english).orElse (fun _ => truthyS tb.romaji)).getD "Untitled"
  let cover := m.coverImage.getD ⟨none, none⟩
  let cc := (truthyS m.countryOfOrigin).getD ""
  let cl := countryLang cc
  { id := m.id.getD 0
    media_type := (truthyS m.type).getD media_type
    title := title
    title_native := (truthyS tb.native).getD ""
    image_url := ((truthyS cover.large).orElse (fun _ => truthyS cover.medium)).getD ""
    country_code := cc
    country := cl.1
    language := cl.2
    start_date := parseStartDate m.startDate
    format := (truthyS m.format).getD "Unknown"
    status := (truthyS m.status).getD "Unknown"
    site_url := (truthyS m.siteUrl).getD "" }

/-- The HTTP/GraphQL response seen by `fetch_new`: status code, raw text,
parsed `errors` array (entries kept abstract as strings) and parsed
`data.Page.media[]` (absent pieces model as `[]`). -/
structure ApiResponse where
  status : Nat
  text : String
  errors : List String
  media : List ApiMedia
deriving DecidableEq, Repr

/-- Embeds `AniListClient.fetch_new` (anilist.py lines 56-104) applied to a
response: raises (`.error`) on a non-200 status or a truthy `errors`
payload, otherwise maps every media entry to a `MediaItem`. -/
def fetch_new (media_type : String) (r : ApiResponse) : Except String (List MediaItem) :=
  if r.status ≠ 200 then
    Except.error ("HTTP " ++ toString r.status ++ "\n\n" ++ r.text.take 2000)
  else if r.errors ≠ [] then
    Except.error ("AniList GraphQL error:\n" ++ String.intercalate "\n" r.errors)
  else
    Except.ok (r.media.map (mediaToItem media_type))

/-- The `variables` object of the GraphQL payload built by `fetch_new`
(anilist.py lines 46-54).  The constant query string is not modelled. -/
structure GqlVariables where
  type : String
  startGreater : Nat
  startLesser : Nat
  perPage : Nat
deriving DecidableEq, Repr

/-- anilist.py lines 42-54: the variables sent with the POST, with the date
bounds computed inline as `date.year * 10000 + date.month * 100 + date.day`. -/
def fetchVariables (media_type : String) (date_from date_to : Date)
    (per_page : Nat) : GqlVariables :=
  { type := media_type
    startGreater := date_from.year * 10000 + date_from.month * 100 + date_from.day
    startLesser := date_to.year * 10000 + date_to.month * 100 + date_to.day
    perPage := per_page }

/-- Dedup key used in workers.py line 37: `(it.media_type, it.id)`. -/
def itemKey (it : MediaItem) : String × Nat :=
  (it.media_type, it.id)

/-- Python dict assignment `uniq[k] = v`: replaces in place when the key is
present, appends otherwise (dict preserves insertion order of keys). -/
def dictInsert (m : List ((String × Nat) × MediaItem)) (k : String × Nat)
    (v : MediaItem) : List ((String × Nat) × MediaItem) :=
  match m with
  | [] => [(k, v)]
  | kv :: t => if kv.1 = k then (k, v) :: t else kv :: dictInsert t k v

/-- Python dict lookup on the association list. -/
def assocLookup (k : String × Nat) :
    List ((String × Nat) × MediaItem) → Option MediaItem
  | [] => none
  | kv :: t => if kv.1 = k then some kv.2 else assocLookup k t

/-- The loop of workers.py lines 35-37 starting from dict `m`:
`for it in items: uniq[(it.media_type, it.id)] = it`. -/
def dictFoldFrom (m : List ((String × Nat) × MediaItem))
    (items : List MediaItem) : List ((String × Nat) × MediaItem) :=
  items.foldl (fun acc it => dictInsert acc (itemKey it) it) m

/-- workers.py lines 34-38: `uniq = {}`; the dedup loop; `list(uniq.values())`. -/
def dedupItems (items : List MediaItem) : List MediaItem :=
  (dictFoldFrom [] items).map Prod.snd

/-- The last element of `items` whose dedup key is `k`. -/
def lastWithKey (k : String × Nat) : List MediaItem → Option MediaItem
  | [] => none
  | x :: xs =>
    match lastWithKey k xs with
    | some y => some y
    | none => if itemKey x = k then some x else none

/-- Python `str.lower()`: lower-case every character (the app's titles are
compared after this mapping). -/
def strLower (s : String) : String :=
  ⟨s.data.map Char.toLower⟩

/-- Python tuple comparison `keyA <= keyB` on the sort key of workers.py
line 40: `(x.key_date, x.media_type, x.title.lower())`. -/
def itemSortLeb (a b : MediaItem) : Bool :=
  dateLtb a.key_date b.key_date ||
    (a.key_date = b.key_date &&
      (strLtb a.media_type b.media_type ||
        (a.media_type = b.media_type &&
          strLeb (strLower a.title) (strLower b.title))))

/-- The order in which `items.sort(key=..., reverse=True)` leaves the list:
`a` precedes `b` when the key of `b` is at most the key of `a`. -/
def sortRel (a b : MediaItem) : Prop :=
  itemSortLeb b a = true

instance : DecidableRel sortRel :=
  fun a b => inferInstanceAs (Decidable (itemSortLeb b a = true))

/-- workers.py line 40: the reverse sort of the deduplicated list. -/
def sortItems (l : List MediaItem) : List MediaItem :=
  List.insertionSort sortRel l

/-- One execution environment of `FetchWorker.run` (workers.py lines 22-44):
the value of the abort flag as observed at each of the three
`if self._abort: return` checkpoints, and the two HTTP responses. -/
structure RunEnv where
  abort1 : Bool
  abort2 : Bool
  abort3 : Bool
  animeResp : ApiResponse
  mangaResp : ApiResponse
deriving DecidableEq, Repr

/-- A signal emitted by `FetchWorker.run`: `finished(list)` or `error(str)`. -/
inductive RunEmit where
  | finished (items : List MediaItem)
  | failure (msg : String)
deriving DecidableEq, Repr

/-- Embeds `FetchWorker.run` (workers.py lines 22-44): returns the signal emitted,
`none` when run returns at an abort checkpoint without emitting. -/
def runModel (env : RunEnv) : Option RunEmit :=
  if env.abort1 then none
  else
    match fetch_new "ANIME" env.animeResp with
    | Except.error e => some (RunEmit.failure e)
    | Except.ok anime =>
      if env.abort2 then none
      else
        match fetch_new "MANGA" env.mangaResp with
        | Except.error e => some (RunEmit.failure e)
        | Except.ok manga =>
          if env.abort3 then none
          else some (RunEmit.finished (sortItems (dedupItems (anime ++ manga))))

/-- Lookup in a string-keyed association list (Python dict `.get`). -/
def strAssoc {α : Type} : List (String × α) → String → Option α
  | [], _ => none
  | kv :: t, k => if kv.1 = k then some kv.2 else strAssoc t k

/-- State of `ImageCache` (cache.py): the URL → pixmap cache and the
URL → in-flight reply map.  Pixmaps and replies are abstract type parameters. -/
structure ImageCacheState (Pix Reply : Type) where
  cache : List (String × Pix)
  pending : List (String × Reply)

/-- Embeds `ImageCache.get` (cache.py lines 18-21). -/
def ImageCacheState.getPix {P R : Type} (s : ImageCacheState P R)
    (url : String) : Option P :=
  if url = "" then none else strAssoc s.cache url

/-- Embeds `ImageCache.request` (cache.py lines 23-33).  `newReply` stands for the
reply object a fresh network request would produce; the second component
is `some url` exactly when a network request is issued
(`self._manager.get(req)`). -/
def ImageCacheState.request {P R : Type} (s : ImageCacheState P R)
    (url : String) (newReply : R) : ImageCacheState P R × Option String :=
  if url = "" ∨ (strAssoc s.cache url).isSome ∨ (strAssoc s.pending url).isSome then
    (s, none)
  else
    ({ s with pending := s.pending ++ [(url, newReply)] }, some url)

theorem charListLeb_trans :
    ∀ {x y z : List Char}, charListLeb x y = true → charListLeb y z = true →
      charListLeb x z = true
  | [], _, _, _, _ => rfl
  | _ :: _, [], _, h1, _ => by simp [charListLeb] at h1
  | _ :: _, _ :: _, [], _, h2 => by simp [charListLeb] at h2
  | a :: as, b :: bs, c :: cs, h1, h2 => by
    simp only [charListLeb, charLtb, Bool.or_eq_true, Bool.and_eq_true,
      decide_eq_true_eq] at *
    rcases h1 with h1 | ⟨he1, h1⟩
    · rcases h2 with h2 | ⟨he2, h2⟩
      · left
        omega
      · left
        omega
    · rcases h2 with h2 | ⟨he2, h2⟩
      · left
        omega
      · exact .inr ⟨by omega, charListLeb_trans h1 h2⟩

theorem charListLtb_eq_of_not :
    ∀ {x y : List Char}, charListLtb x y = false → charListLtb y x = false →
      x = y
  | [], [], _, _ => rfl
  | [], _ :: _, h1, _ => by simp [charListLtb] at h1
  | _ :: _, [], _, h2 => by simp [charListLtb] at h2
  | a :: as, b :: bs, h1, h2 => by
    simp only [charListLtb, charLtb, Bool.or_eq_false_iff, Bool.and_eq_false_iff,
      decide_eq_false_iff_not, not_lt, ne_eq] at h1 h2
    obtain ⟨hab, h1r⟩ := h1
    obtain ⟨hba, h2r⟩ := h2
    have hn : a.toNat = b.toNat := by omega
    have ha : a = b := Char.ext (UInt32.ext hn)
    subst ha
    rcases h1r with h1r | h1r
    · exact absurd rfl h1r
    · rcases h2r with h2r | h2r
      · exact absurd rfl h2r
      · rw [charListLtb_eq_of_not h1r h2r]

theorem strLeb_trans {a b c : String} (h1 : strLeb a b = true)
    (h2 : strLeb b c = true) : strLeb a c = true :=
  charListLeb_trans h1 h2

theorem strLtb_eq_of_not {a b : String} (h1 : strLtb a b = false)
    (h2 : strLtb b a = false) : a = b := by
  cases a with
  | mk da =>
    cases b with
    | mk db =>
      have : da = db := charListLtb_eq_of_not h1 h2
      rw [this]

theorem strLtb_or_eq_or_gt (a b : String) :
    strLtb a b = true ∨ a = b ∨ strLtb b a = true := by
  cases h1 : strLtb a b
  · cases h2 : strLtb b a
    · exact .inr (.inl (strLtb_eq_of_not h1 h2))
    · exact .inr (.inr rfl)
  · exact .inl rfl

theorem charListLtb_irrefl : ∀ x : List Char, charListLtb x x = false
  | [] => rfl
  | a :: as => by
    simp only [charListLtb, charLtb, Bool.or_eq_false_iff, Bool.and_eq_false_iff,
      decide_eq_false_iff_not, not_lt, ne_eq]
    exact ⟨le_refl _, .inr (charListLtb_irrefl as)⟩

theorem strLeb_refl (a : String) : strLeb a a = true :=
  strLeb_iff_not_gt.mpr (charListLtb_irrefl a.data)

theorem charListLtb_asymm :
    ∀ {x y : List Char}, charListLtb x y = true → charListLtb y x = false
  | [], [], h => by simp [charListLtb] at h
  | [], _ :: _, _ => rfl
  | _ :: _, [], h => by simp [charListLtb] at h
  | a :: as, b :: bs, h => by
    simp only [charListLtb, charLtb, Bool.or_eq_true, Bool.and_eq_true,
      decide_eq_true_eq, Bool.or_eq_false_iff, Bool.and_eq_false_iff,
      decide_eq_false_iff_not, not_lt, ne_eq] at *
    rcases h with h | ⟨he, h⟩
    · exact ⟨by omega, .inl (by omega)⟩
    · exact ⟨by omega, .inr (charListLtb_asymm h)⟩

theorem strLtb_asymm {a b : String} (h : strLtb a b = true) :
    strLtb b a = false :=
  charListLtb_asymm h

theorem strLeb_of_ltb {a b : String} (h : strLtb a b = true) :
    strLeb a b = true :=
  strLeb_iff_not_gt.mpr (strLtb_asymm h)

theorem itemSortLeb_total (a b : MediaItem) :
    itemSortLeb a b = true ∨ itemSortLeb b a = true := by
  simp only [itemSortLeb, Bool.or_eq_true, Bool.and_eq_true, decide_eq_true_eq]
  rcases dateLtb_or_eq_or_gt a.key_date b.key_date with hd | hd | hd
  · exact .inl (.inl hd)
  · rcases strLtb_or_eq_or_gt a.media_type b.media_type with hs | hs | hs
    · exact .inl (.inr ⟨hd, .inl hs⟩)
    · rcases strLtb_or_eq_or_gt (strLower a.title) (strLower b.title) with ht | ht | ht
      · exact .inl (.inr ⟨hd, .inr ⟨hs, strLeb_of_ltb ht⟩⟩)
      · exact .inl (.inr ⟨hd, .inr ⟨hs, ht ▸ strLeb_refl _⟩⟩)
      · exact .inr (.inr ⟨hd.symm, .inr ⟨hs.symm, strLeb_of_ltb ht⟩⟩)
    · exact .inr (.inr ⟨hd.symm, .inl hs⟩)
  · exact .inr (.inl hd)

theorem itemSortLeb_trans {a b c : MediaItem} (h1 : itemSortLeb a b = true)
    (h2 : itemSortLeb b c = true) : itemSortLeb a c = true := by
  simp only [itemSortLeb, Bool.or_eq_true, Bool.and_eq_true, decide_eq_true_eq] at *
  rcases h1 with h1 | ⟨hd1, h1⟩
  · rcases h2 with h2 | ⟨hd2, h2⟩
    · exact .inl (dateLtb_trans h1 h2)
    · left
      rw [← hd2]
      exact h1
  · rcases h2 with h2 | ⟨hd2, h2⟩
    · left
      rw [hd1]
      exact h2
    · refine .inr ⟨hd1.trans hd2, ?_⟩
      rcases h1 with h1 | ⟨hs1, h1⟩
      · rcases h2 with h2 | ⟨hs2, h2⟩
        · exact .inl (strLtb_trans h1 h2)
        · left
          rw [← hs2]
          exact h1
      · rcases h2 with h2 | ⟨hs2, h2⟩
        · left
          rw [hs1]
          exact h2
        · exact .inr ⟨hs1.trans hs2, strLeb_trans h1 h2⟩

instance : IsTotal MediaItem sortRel :=
  ⟨fun a b => (itemSortLeb_total a b).symm⟩

instance : IsTrans MediaItem sortRel :=
  ⟨fun _ _ _ h1 h2 => itemSortLeb_trans h2 h1⟩

theorem dateLeb_refl (a : Date) : dateLeb a a = true := by
  simp [dateLeb]

theorem dateLeb_of_ltb {a b : Date} (h : dateLtb a b = true) :
    dateLeb a b = true := by
  simp only [dateLtb, Bool.or_eq_true, Bool.and_eq_true, decide_eq_true_eq] at h
  simp only [dateLeb, Bool.or_eq_true, Bool.and_eq_true, decide_eq_true_eq]
  omega

/-- The first component of the sort key dominates: a sorted-before item has
a key date at least as large. -/
theorem itemSortLeb_key_date {a b : MediaItem} (h : itemSortLeb a b = true) :
    dateLeb a.key_date b.key_date = true := by
  simp only [itemSortLeb, Bool.or_eq_true, Bool.and_eq_true, decide_eq_true_eq] at h
  rcases h with h | ⟨h, _⟩
  · exact dateLeb_of_ltb h
  · rw [h]
    exact dateLeb_refl _

theorem dictInsert_cons (kv : (String × Nat) × MediaItem)
    (t : List ((String × Nat) × MediaItem)) (k : String × Nat) (v : MediaItem) :
    dictInsert (kv :: t) k v =
      if kv.1 = k then (k, v) :: t else kv :: dictInsert t k v := rfl

theorem assocLookup_cons (kv : (String × Nat) × MediaItem)
    (t : List ((String × Nat) × MediaItem)) (k : String × Nat) :
    assocLookup k (kv :: t) =
      if kv.1 = k then some kv.2 else assocLookup k t := rfl

theorem assocLookup_dictInsert (m : List ((String × Nat) × MediaItem))
    (k k' : String × Nat) (v : MediaItem) :
    assocLookup k' (dictInsert m k v) =
      if k' = k then some v else assocLookup k' m := by
  induction m with
  | nil =>
    rw [show dictInsert [] k v = [(k, v)] from rfl, assocLookup_cons]
    by_cases h2 : k' = k
    · rw [if_pos (show (k, v).1 = k' from h2.symm), if_pos h2]
    · rw [if_neg (show ¬(k, v).1 = k' from fun hh => h2 hh.symm), if_neg h2]
  | cons kv t ih =>
    rw [dictInsert_cons]
    by_cases h1 : kv.1 = k
    · rw [if_pos h1, assocLookup_cons, assocLookup_cons]
      by_cases h2 : k' = k
      · rw [if_pos (show (k, v).1 = k' from h2.symm), if_pos h2]
      · rw [if_neg (show ¬(k, v).1 = k' from fun hh => h2 hh.symm), if_neg h2,
          if_neg (show ¬kv.1 = k' from fun hh => h2 (hh.symm.trans h1))]
    · rw [if_neg h1, assocLookup_cons, assocLookup_cons, ih]
      by_cases h2 : kv.1 = k'
      · rw [if_pos h2, if_pos h2,
          if_neg (show ¬k' = k from fun hh => h1 (h2.trans hh))]
      · rw [if_neg h2, if_neg h2]

/-- Keys present after a dict assignment. -/
theorem mem_keys_dictInsert (m : List ((String × Nat) × MediaItem))
    (k k' : String × Nat) (v : MediaItem) :
    k' ∈ (dictInsert m k v).map Prod.fst ↔
      k' ∈ m.map Prod.fst ∨ k' = k := by
  induction m with
  | nil => simp [dictInsert]
  | cons kv t ih =>
    simp only [dictInsert]
    split_ifs with h1
    · subst h1
      simp only [List.map_cons, List.mem_cons]
      tauto
    · simp only [List.map_cons, List.mem_cons, ih]
      tauto

/-- A dict assignment keeps the keys without duplicates. -/
theorem nodup_keys_dictInsert (m : List ((String × Nat) × MediaItem))
    (k : String × Nat) (v : MediaItem)
    (h : (m.map Prod.fst).Nodup) : ((dictInsert m k v).map Prod.fst).Nodup := by
  induction m with
  | nil => simp [dictInsert]
  | cons kv t ih =>
    simp only [List.map_cons, List.nodup_cons] at h
    simp only [dictInsert]
    split_ifs with h1
    · simp only [List.map_cons, List.nodup_cons]
      rw [h1] at h
      exact h
    · simp only [List.map_cons, List.nodup_cons, mem_keys_dictInsert]
      refine ⟨?_, ih h.2⟩
      rintro (hm | hm)
      · exact h.1 hm
      · exact h1 hm

/-- A dict assignment keeps every entry's key equal to its value's dedup key. -/
theorem consistent_dictInsert (m : List ((String × Nat) × MediaItem))
    (it : MediaItem)
    (h : ∀ kv ∈ m, itemKey kv.2 = kv.1) :
    ∀ kv ∈ dictInsert m (itemKey it) it, itemKey kv.2 = kv.1 := by
  induction m with
  | nil =>
    intro kv hkv
    simp only [dictInsert, List.mem_singleton] at hkv
    subst hkv
    rfl
  | cons kv0 t ih =>
    intro kv hkv
    simp only [dictInsert] at hkv
    split_ifs at hkv with h1
    · rcases List.mem_cons.mp hkv with h2 | h2
      · subst h2
        rfl
      · exact h kv (List.mem_cons_of_mem _ h2)
    · rcases List.mem_cons.mp hkv with h2 | h2
      · subst h2
        exact h _ (List.mem_cons_self _ _)
      · exact ih (fun kv2 hkv2 => h kv2 (List.mem_cons_of_mem _ hkv2)) kv h2

theorem dictFoldFrom_cons (m : List ((String × Nat) × MediaItem))
    (x : MediaItem) (xs : List MediaItem) :
    dictFoldFrom m (x :: xs) = dictFoldFrom (dictInsert m (itemKey x) x) xs := rfl

theorem consistent_dictFoldFrom (items : List MediaItem)
    (m : List ((String × Nat) × MediaItem))
    (h : ∀ kv ∈ m, itemKey kv.2 = kv.1) :
    ∀ kv ∈ dictFoldFrom m items, itemKey kv.2 = kv.1 := by
  induction items generalizing m with
  | nil => exact h
  | cons x xs ih => exact ih _ (consistent_dictInsert m x h)

theorem nodup_keys_dictFoldFrom (items : List MediaItem)
    (m : List ((String × Nat) × MediaItem))
    (h : (m.map Prod.fst).Nodup) :
    ((dictFoldFrom m items).map Prod.fst).Nodup := by
  induction items generalizing m with
  | nil => exact h
  | cons x xs ih => exact ih _ (nodup_keys_dictInsert m _ x h)

theorem mem_keys_dictFoldFrom (items : List MediaItem)
    (m : List ((String × Nat) × MediaItem)) (k : String × Nat) :
    k ∈ (dictFoldFrom m items).map Prod.fst ↔
      k ∈ m.map Prod.fst ∨ k ∈ items.map itemKey := by
  induction items generalizing m with
  | nil => simp [dictFoldFrom]
  | cons x xs ih =>
    rw [dictFoldFrom_cons, ih]
    simp only [mem_keys_dictInsert, List.map_cons, List.mem_cons]
    tauto

theorem lastWithKey_cons (k : String × Nat) (x : MediaItem) (xs : List MediaItem) :
    lastWithKey k (x :: xs) =
      match lastWithKey k xs with
      | some y => some y
      | none => if itemKey x = k then some x else none := rfl

theorem assocLookup_dictFoldFrom (items : List MediaItem)
    (m : List ((String × Nat) × MediaItem)) (k : String × Nat) :
    assocLookup k (dictFoldFrom m items) =
      match lastWithKey k items with
      | some y => some y
      | none => assocLookup k m := by
  induction items generalizing m with
  | nil => rfl
  | cons x xs ih =>
    rw [dictFoldFrom_cons, ih]
    cases hl : lastWithKey k xs with
    | some y => simp [lastWithKey_cons, hl]
    | none =>
      simp only [lastWithKey_cons, hl, assocLookup_dictInsert]
      by_cases hx : itemKey x = k
      · rw [if_pos hx, if_pos (show k = itemKey x from hx.symm)]
      · rw [if_neg hx, if_neg (show ¬k = itemKey x from fun hh => hx hh.symm)]

theorem assocLookup_of_mem_snd (m : List ((String × Nat) × MediaItem))
    (x : MediaItem) (hcons : ∀ kv ∈ m, itemKey kv.2 = kv.1)
    (hnd : (m.map Prod.fst).Nodup) (hx : x ∈ m.map Prod.snd) :
    assocLookup (itemKey x) m = some x := by
  induction m with
  | nil => simp at hx
  | cons kv t ih =>
    simp only [List.map_cons, List.mem_cons] at hx
    simp only [List.map_cons, List.nodup_cons] at hnd
    have hc := hcons kv (List.mem_cons_self _ _)
    rcases hx with hx | hx
    · subst hx
      rw [assocLookup_cons, if_pos hc.symm]
    · rw [assocLookup_cons]
      by_cases hk : kv.1 = itemKey x
      · exfalso
        obtain ⟨kv2, hkv2, hkv2x⟩ := List.mem_map.mp hx
        have hc2 := hcons kv2 (List.mem_cons_of_mem _ hkv2)
        apply hnd.1
        rw [hk, ← hkv2x, hc2]
        exact List.mem_map_of_mem Prod.fst hkv2
      · rw [if_neg hk]
        exact ih (fun kv2 h2 => hcons kv2 (List.mem_cons_of_mem _ h2)) hnd.2 hx

theorem countP_snd_eq (m : List ((String × Nat) × MediaItem)) (k : String × Nat)
    (hcons : ∀ kv ∈ m, itemKey kv.2 = kv.1)
    (hnd : (m.map Prod.fst).Nodup) :
    (m.map Prod.snd).countP (fun x => itemKey x = k) =
      if k ∈ m.map Prod.fst then 1 else 0 := by
  induction m with
  | nil => simp
  | cons kv t ih =>
    simp only [List.map_cons, List.nodup_cons] at hnd
    have hc := hcons kv (List.mem_cons_self _ _)
    simp only [List.map_cons, List.countP_cons, List.mem_cons]
    rw [ih (fun kv2 h2 => hcons kv2 (List.mem_cons_of_mem _ h2)) hnd.2]
    by_cases hk : k = kv.1
    · subst hk
      rw [if_neg (fun hh => hnd.1 hh), if_pos (Or.inl rfl)]
      simp [hc]
    · have haddend : (if decide (itemKey kv.2 = k) = true then 1 else 0) = 0 := by
        simp only [hc, decide_eq_true_eq, ite_eq_right_iff]
        intro hh
        exact absurd hh.symm hk
      rw [haddend, Nat.add_zero]
      by_cases hm : k ∈ t.map Prod.fst
      · rw [if_pos hm, if_pos (Or.inr hm)]
      · rw [if_neg hm,
          if_neg (fun hh : k = kv.1 ∨ k ∈ t.map Prod.fst =>
            hh.elim (fun h2 => hk h2) (fun h2 => hm h2))]

/-- Unpack a finished run: both fetches succeeded, and the emitted list is
the sorted dedup of anime ++ manga. -/
theorem runModel_finished {env : RunEnv} {l : List MediaItem}
    (h : runModel env = some (RunEmit.finished l)) :
    env.abort1 = false ∧ env.abort2 = false ∧ env.abort3 = false ∧
    ∃ anime manga, fetch_new "ANIME" env.animeResp = Except.ok anime ∧
      fetch_new "MANGA" env.mangaResp = Except.ok manga ∧
      l = sortItems (dedupItems (anime ++ manga)) := by
  unfold runModel at h
  cases h1 : env.abort1 with
  | true => rw [h1] at h; simp at h
  | false =>
    rw [h1] at h
    simp only [Bool.false_eq_true, if_false] at h
    cases hA : fetch_new "ANIME" env.animeResp with
    | error e => rw [hA] at h; simp at h
    | ok anime =>
      rw [hA] at h
      simp only [] at h
      cases h2 : env.abort2 with
      | true => rw [h2] at h; simp at h
      | false =>
        rw [h2] at h
        simp only [Bool.false_eq_true, if_false] at h
        cases hM : fetch_new "MANGA" env.mangaResp with
        | error e => rw [hM] at h; simp at h
        | ok manga =>
          rw [hM] at h
          simp only [] at h
          cases h3 : env.abort3 with
          | true => rw [h3] at h; simp at h
          | false =>
            rw [h3] at h
            simp only [Bool.false_eq_true, if_false, Option.some.injEq] at h
            refine ⟨rfl, rfl, rfl, anime, manga, rfl, rfl, ?_⟩
            cases h
            rfl

/-- The dedup of workers.py keeps each (media_type, id) key exactly once. -/
theorem dedupItems_countP (items : List MediaItem) (k : String × Nat) :
    (dedupItems items).countP (fun x => itemKey x = k) =
      if k ∈ items.map itemKey then 1 else 0 := by
  unfold dedupItems
  rw [countP_snd_eq _ k (consistent_dictFoldFrom items [] (by simp))
    (nodup_keys_dictFoldFrom items [] (by simp))]
  by_cases hm : k ∈ items.map itemKey
  · rw [if_pos ((mem_keys_dictFoldFrom items [] k).mpr (Or.inr hm)), if_pos hm]
  · rw [if_neg (fun hh =>
      hm (((mem_keys_dictFoldFrom items [] k).mp hh).resolve_left (by simp))),
      if_neg hm]

/-- The dedup of workers.py keeps, for each key, the last occurrence. -/
theorem dedupItems_last (items : List MediaItem) (x : MediaItem)
    (hx : x ∈ dedupItems items) :
    lastWithKey (itemKey x) items = some x := by
  have h1 : assocLookup (itemKey x) (dictFoldFrom [] items) = some x :=
    assocLookup_of_mem_snd _ x (consistent_dictFoldFrom items [] (by simp))
      (nodup_keys_dictFoldFrom items [] (by simp)) hx
  rw [assocLookup_dictFoldFrom] at h1
  cases hl : lastWithKey (itemKey x) items with
  | some y =>
    simp only [hl] at h1
    exact h1
  | none =>
    simp only [hl] at h1
    simp [assocLookup] at h1

theorem sortItems_pairwise (l : List MediaItem) :
    (sortItems l).Pairwise sortRel :=
  List.sorted_insertionSort sortRel l

theorem sortItems_perm (l : List MediaItem) :
    (sortItems l).Perm l :=
  List.perm_insertionSort sortRel l

/-- Returns `true` exactly when `fetch_new` raised. -/
def exceptIsError {ε α : Type} : Except ε α → Bool
  | Except.error _ => true
  | Except.ok _ => false

/-- A fuzzy date object is incomplete: year, month or day absent or falsy. -/
def fuzzyIncomplete : Option ApiFuzzyDate → Bool
  | none => true
  | some f =>
    (truthyN f.year).isNone || (truthyN f.month).isNone || (truthyN f.day).isNone

/-- The startDate of the JSON item is incomplete: missing altogether, or
with year, month or day absent or falsy. -/
def startDateIncomplete (m : ApiMedia) : Bool :=
  fuzzyIncomplete m.startDate

/-- Demo JSON entry: dated ANIME, full metadata. -/
def apiAlpha : ApiMedia :=
  { id := some 1, type := some "ANIME", format := some "TV",
    status := some "RELEASING",
    title := some ⟨some "Arufa", some "Alpha", some "Arufa native"⟩,
    startDate := some ⟨some 2024, some 5, some 1⟩,
    countryOfOrigin := some "JPN",
    siteUrl := some "https://example.org/a1",
    coverImage := some ⟨some "https://img.example.org/a1.png", none⟩ }

/-- Demo JSON entry: ANIME with incomplete startDate (month missing) and no
country. -/
def apiGamma : ApiMedia :=
  { id := some 3, type := some "ANIME", format := none, status := none,
    title := some ⟨some "Gamma", none, none⟩,
    startDate := some ⟨some 2024, none, some 7⟩,
    countryOfOrigin := none, siteUrl := none, coverImage := none }

/-- Demo JSON entry: MANGA id 2, first occurrence (overwritten by dedup). -/
def apiBeta1 : ApiMedia :=
  { id := some 2, type := some "MANGA", format := some "ONE_SHOT",
    status := none,
    title := some ⟨none, some "Beta", none⟩,
    startDate := some ⟨some 2024, some 4, some 30⟩,
    countryOfOrigin := some "KOR", siteUrl := none, coverImage := none }

/-- Demo JSON entry: MANGA id 2 again, last occurrence (retained by dedup);
same release date as `apiAlpha` to exercise the tie-break. -/
def apiBeta2 : ApiMedia :=
  { id := some 2, type := some "MANGA", format := none, status := none,
    title := some ⟨none, some "Beta revised", none⟩,
    startDate := some ⟨some 2024, some 5, some 1⟩,
    countryOfOrigin := some "KOR", siteUrl := none, coverImage := none }

/-- A run in which nothing is aborted and both fetches succeed. -/
def demoEnv : RunEnv :=
  { abort1 := false, abort2 := false, abort3 := false,
    animeResp := { status := 200, text := "", errors := [],
                   media := [apiAlpha, apiGamma] },
    mangaResp := { status := 200, text := "", errors := [],
                   media := [apiBeta1, apiBeta2] } }

/-- The list `demoEnv` makes `FetchWorker.run` emit. -/
def demoList : List MediaItem :=
  [mediaToItem "MANGA" apiBeta2, mediaToItem "ANIME" apiAlpha,
   mediaToItem "ANIME" apiGamma]

/-- Demo JSON entry with a non-empty country code absent from COUNTRY_MAP. -/
def apiDelta : ApiMedia :=
  { id := some 4, type := some "MANGA", format := none, status := none,
    title := some ⟨some "Delta", none, none⟩, startDate := none,
    countryOfOrigin := some "ZZZ", siteUrl := none, coverImage := none }

/-- C6: for every pair of dates, `fetch_new` sends as the variables of the
POSTed GraphQL request the lower and upper date bounds as the YYYYMMDD
integers year*10000 + month*100 + day of date_from and date_to (the value
computed by `yyyymmdd_int` of utils.py), together with the page size. -/
theorem C6_fetch_variables (media_type : String) (date_from date_to : Date)
    (per_page : Nat) :
    fetchVariables media_type date_from date_to per_page =
      { type := media_type, startGreater := yyyymmdd_int date_from,
        startLesser := yyyymmdd_int date_to, perPage := per_page } := rfl

/-- C3: an API item whose startDate lacks a complete year, month and day
(any of the three missing or falsy) maps to a MediaItem with
`start_date = none`, whose `publication_day` is "Unknown". -/
theorem C3_incomplete_date (media_type : String) (m : ApiMedia)
    (h : startDateIncomplete m = true) :
    (mediaToItem media_type m).start_date = none ∧
      (mediaToItem media_type m).publication_day = "Unknown" := by
  have h1 : (mediaToItem media_type m).start_date = parseStartDate m.startDate := rfl
  have h2 : parseStartDate m.startDate = none := by
    unfold startDateIncomplete at h
    cases hs : m.startDate with
    | none => rfl
    | some f =>
      rw [hs] at h
      simp only [fuzzyIncomplete] at h
      simp only [parseStartDate]
      split
      · rename_i y mo d hy hmo hd
        rw [hy, hmo, hd] at h
        simp at h
      · rfl
  have h3 : (mediaToItem media_type m).start_date = none := h1.trans h2
  refine ⟨h3, ?_⟩
  unfold MediaItem.publication_day
  rw [h3]

/-- Witness for C3 at the concrete entry `apiGamma` (month missing). -/
theorem C3_witness :
    startDateIncomplete apiGamma = true ∧
      (mediaToItem "ANIME" apiGamma).start_date = none ∧
      (mediaToItem "ANIME" apiGamma).publication_day = "Unknown" :=
  ⟨by decide, C3_incomplete_date "ANIME" apiGamma (by decide)⟩

/-- C4 as stated is false: an item with missing (or empty) countryOfOrigin
has code "" which is not a key of COUNTRY_MAP, yet the produced pair is
("Unknown", "Unknown"), not the code "" itself. -/
theorem C4_counterexample :
    ¬ (∀ (media_type : String) (m : ApiMedia),
        countryLookup ((truthyS m.countryOfOrigin).getD "") = none →
        (mediaToItem media_type m).country = (truthyS m.countryOfOrigin).getD "" ∧
        (mediaToItem media_type m).language = "Unknown") := by
  intro h
  have h2 := h "ANIME" apiGamma (by decide)
  exact absurd h2.1 (by decide)

/-- C4 amended: an API item whose countryOfOrigin code is not a key of
COUNTRY_MAP never fails; it maps to (code, "Unknown") when the code is
non-empty, and to ("Unknown", "Unknown") when the code is empty or
missing. -/
theorem C4_country_fallback (media_type : String) (m : ApiMedia)
    (h : countryLookup ((truthyS m.countryOfOrigin).getD "") = none) :
    (mediaToItem media_type m).country =
      (if (truthyS m.countryOfOrigin).getD "" = "" then "Unknown"
       else (truthyS m.countryOfOrigin).getD "") ∧
    (mediaToItem media_type m).language = "Unknown" := by
  have hc : (mediaToItem media_type m).country =
      (countryLang ((truthyS m.countryOfOrigin).getD "")).1 := rfl
  have hl : (mediaToItem media_type m).language =
      (countryLang ((truthyS m.countryOfOrigin).getD "")).2 := rfl
  unfold countryLang at hc hl
  rw [h] at hc hl
  exact ⟨hc, hl⟩

/-- Witness for the amended C4 at the unrecognized non-empty code "ZZZ". -/
theorem C4_witness :
    countryLookup ((truthyS apiDelta.countryOfOrigin).getD "") = none ∧
      (mediaToItem "MANGA" apiDelta).country = "ZZZ" ∧
      (mediaToItem "MANGA" apiDelta).language = "Unknown" := by
  have h := C4_country_fallback "MANGA" apiDelta (by decide)
  exact ⟨by decide, h.1.trans (by decide), h.2⟩

/-- C5: `fetch_new` raises exactly when the HTTP status is not 200 or the
GraphQL errors array is non-empty; and a run one of whose fetches raised
never emits the finished signal (no incomplete result list on failure). -/
theorem C5_error_handling (media_type : String) (r : ApiResponse)
    (env : RunEnv) (l : List MediaItem) :
    (exceptIsError (fetch_new media_type r) = true ↔
      (r.status ≠ 200 ∨ r.errors ≠ [])) ∧
    ((exceptIsError (fetch_new "ANIME" env.animeResp) = true ∨
      exceptIsError (fetch_new "MANGA" env.mangaResp) = true) →
      runModel env ≠ some (RunEmit.finished l)) := by
  constructor
  · unfold fetch_new
    split_ifs with hs he
    · exact ⟨fun _ => Or.inl hs, fun _ => rfl⟩
    · exact ⟨fun _ => Or.inr he, fun _ => rfl⟩
    · constructor
      · intro hh
        exact absurd hh (by simp [exceptIsError])
      · rintro (hh | hh)
        · exact absurd hh hs
        · exact absurd hh he
  · rintro (he | he) hrun
    · obtain ⟨_, _, _, anime, manga, hA, hM, _⟩ := runModel_finished hrun
      rw [hA] at he
      simp [exceptIsError] at he
    · obtain ⟨_, _, _, anime, manga, hA, hM, _⟩ := runModel_finished hrun
      rw [hM] at he
      simp [exceptIsError] at he

/-- An HTTP 500 response. -/
def badResp : ApiResponse :=
  { status := 500, text := "oops", errors := [], media := [] }

/-- A run whose ANIME fetch hits the HTTP 500 response. -/
def badEnv : RunEnv :=
  { abort1 := false, abort2 := false, abort3 := false,
    animeResp := badResp,
    mangaResp := { status := 200, text := "", errors := [], media := [] } }

/-- Witness for C5 at the concrete HTTP 500 response. -/
theorem C5_witness :
    exceptIsError (fetch_new "ANIME" badResp) = true ∧
      runModel badEnv ≠ some (RunEmit.finished []) :=
  ⟨(C5_error_handling "ANIME" badResp badEnv []).1.mpr (Or.inl (by decide)),
    (C5_error_handling "ANIME" badResp badEnv []).2 (Or.inl (by decide))⟩

/-- C8: once the abort flag was observed set at any checkpoint of
`FetchWorker.run`, the run never emits the finished signal. -/
theorem C8_abort_no_finish (env : RunEnv) (l : List MediaItem)
    (h : (env.abort1 || env.abort2 || env.abort3) = true) :
    runModel env ≠ some (RunEmit.finished l) := by
  intro hrun
  obtain ⟨h1, h2, h3, _⟩ := runModel_finished hrun
  rw [h1, h2, h3] at h
  simp at h

/-- A run aborted between the first and second fetch. -/
def demoAbortEnv : RunEnv :=
  { demoEnv with abort2 := true, abort3 := true }

/-- Witness for C8 at the concrete aborted run. -/
theorem C8_witness :
    (demoAbortEnv.abort1 || demoAbortEnv.abort2 || demoAbortEnv.abort3) = true ∧
      runModel demoAbortEnv ≠ some (RunEmit.finished demoList) :=
  ⟨by decide, C8_abort_no_finish demoAbortEnv demoList (by decide)⟩

theorem strAssoc_append_self {α : Type} (l : List (String × α)) (url : String)
    (v : α) : (strAssoc (l ++ [(url, v)]) url).isSome = true := by
  induction l with
  | nil => simp [strAssoc]
  | cons kv t ih =>
    simp only [List.cons_append, strAssoc]
    by_cases h : kv.1 = url
    · rw [if_pos h]
      rfl
    · rw [if_neg h]
      exact ih

/-- C7: `ImageCache.request` is idempotent per URL: on an empty URL, a
cached URL or an in-flight URL it issues no network request and leaves the
state unchanged; and immediately repeating a request never issues a second
download for the same URL. -/
theorem C7_request_idempotent (P R : Type) (s : ImageCacheState P R)
    (url : String) (r1 r2 : R) :
    ((url = "" ∨ (strAssoc s.cache url).isSome = true ∨
        (strAssoc s.pending url).isSome = true) →
      s.request url r1 = (s, none)) ∧
    (s.request url r1).1.request url r2 = ((s.request url r1).1, none) := by
  constructor
  · intro h
    unfold ImageCacheState.request
    rw [if_pos h]
  · by_cases h : url = "" ∨ (strAssoc s.cache url).isSome = true ∨
      (strAssoc s.pending url).isSome = true
    · have h1 : s.request url r1 = (s, none) := by
        unfold ImageCacheState.request
        rw [if_pos h]
      rw [h1]
      show s.request url r2 = (s, none)
      unfold ImageCacheState.request
      rw [if_pos h]
    · have h1 : s.request url r1 =
          ({ cache := s.cache, pending := s.pending ++ [(url, r1)] }, some url) := by
        unfold ImageCacheState.request
        rw [if_neg h]
      rw [h1]
      show ImageCacheState.request ⟨s.cache, s.pending ++ [(url, r1)]⟩ url r2 =
        (⟨s.cache, s.pending ++ [(url, r1)]⟩, none)
      unfold ImageCacheState.request
      rw [if_pos (Or.inr (Or.inr (strAssoc_append_self s.pending url r1)))]

/-- A cache that already holds the image for URL "u". -/
def demoCache : ImageCacheState Nat Nat :=
  { cache := [("u", 7)], pending := [] }

/-- Witness for C7 at the concrete cached URL "u". -/
theorem C7_witness :
    ("u" = "" ∨ (strAssoc demoCache.cache "u").isSome = true ∨
        (strAssoc demoCache.pending "u").isSome = true) ∧
      demoCache.request "u" 1 = (demoCache, none) ∧
      (demoCache.request "u" 1).1.request "u" 2 =
        ((demoCache.request "u" 1).1, none) :=
  ⟨Or.inr (Or.inl (by decide)),
    (C7_request_idempotent Nat Nat demoCache "u" 1 2).1
      (Or.inr (Or.inl (by decide))),
    (C7_request_idempotent Nat Nat demoCache "u" 1 2).2⟩

/-- The tie order the spec sentence describes: non-increasing release date,
and on equal dates media type ascending, then case-insensitive title
ascending. -/
def claimOrderb (a b : MediaItem) : Bool :=
  dateLtb b.key_date a.key_date ||
    (a.key_date = b.key_date &&
      (strLtb a.media_type b.media_type ||
        (a.media_type = b.media_type &&
          strLeb (strLower a.title) (strLower b.title))))

/-- C1 counterexample: the run at `demoEnv` emits a MANGA entry before an
ANIME entry of the same release date, because `reverse=True` also reverses
the media-type and title tie-break keys; the claimed ascending tie order
fails on this output. -/
theorem C1_counterexample :
    runModel demoEnv = some (RunEmit.finished demoList) ∧
      ¬ demoList.Pairwise (fun a b => claimOrderb a b = true) :=
  ⟨by decide, by decide⟩

/-- C1 amended: every emitted list is non-increasing by release date, and
sorted by the full reversed key: ties on the date are ordered by media type
descending, then by case-insensitive title descending. -/
theorem C1_sort_order (env : RunEnv) (l : List MediaItem)
    (h : runModel env = some (RunEmit.finished l)) :
    l.Pairwise (fun a b => dateLeb b.key_date a.key_date = true) ∧
      l.Pairwise sortRel := by
  obtain ⟨_, _, _, anime, manga, _, _, hl⟩ := runModel_finished h
  subst hl
  exact ⟨(sortItems_pairwise _).imp (fun hab => itemSortLeb_key_date hab),
    sortItems_pairwise _⟩

/-- Witness for the amended C1 at the concrete run `demoEnv`. -/
theorem C1_witness :
    runModel demoEnv = some (RunEmit.finished demoList) ∧
      demoList.Pairwise (fun a b => dateLeb b.key_date a.key_date = true) ∧
      demoList.Pairwise sortRel :=
  ⟨by decide, C1_sort_order demoEnv demoList (by decide)⟩

/-- C2: the emitted list holds each (media_type, id) key of the fetched
lists exactly once, and no other key: items sharing id across media types
are both retained, items sharing id and media type collapse to one. -/
theorem C2_dedup_unique (env : RunEnv) (l anime manga : List MediaItem)
    (k : String × Nat)
    (hA : fetch_new "ANIME" env.animeResp = Except.ok anime)
    (hM : fetch_new "MANGA" env.mangaResp = Except.ok manga)
    (h : runModel env = some (RunEmit.finished l)) :
    l.countP (fun x => itemKey x = k) =
      if k ∈ (anime ++ manga).map itemKey then 1 else 0 := by
  obtain ⟨_, _, _, anime2, manga2, hA2, hM2, hl⟩ := runModel_finished h
  rw [hA] at hA2
  rw [hM] at hM2
  cases hA2
  cases hM2
  subst hl
  rw [List.Perm.countP_eq _ (sortItems_perm _)]
  exact dedupItems_countP _ k

/-- The list of items the ANIME fetch of `demoEnv` produces. -/
def demoAnime : List MediaItem :=
  [mediaToItem "ANIME" apiAlpha, mediaToItem "ANIME" apiGamma]

/-- The list of items the MANGA fetch of `demoEnv` produces. -/
def demoManga : List MediaItem :=
  [mediaToItem "MANGA" apiBeta1, mediaToItem "MANGA" apiBeta2]

/-- Witness for C2 at the duplicated key ("MANGA", 2) of `demoEnv`. -/
theorem C2_witness :
    fetch_new "ANIME" demoEnv.animeResp = Except.ok demoAnime ∧
      fetch_new "MANGA" demoEnv.mangaResp = Except.ok demoManga ∧
      runModel demoEnv = some (RunEmit.finished demoList) ∧
      demoList.countP (fun x => itemKey x = ("MANGA", 2)) =
        if ("MANGA", 2) ∈ (demoAnime ++ demoManga).map itemKey then 1 else 0 :=
  ⟨rfl, rfl, by decide,
    C2_dedup_unique demoEnv demoList demoAnime demoManga ("MANGA", 2)
      rfl rfl (by decide)⟩

/-- C9: an undated item has the fixed key date 1900-01-01, so in the
emitted list every undated item comes after every item whose release date
is later than 1900-01-01. -/
theorem C9_undated_last :
    (∀ x : MediaItem, x.start_date = none → x.key_date = ⟨1900, 1, 1⟩) ∧
    ∀ (env : RunEnv) (l : List MediaItem),
      runModel env = some (RunEmit.finished l) →
      ∀ (i j : Nat) (hi : i < l.length) (hj : j < l.length),
        (l.get ⟨i, hi⟩).start_date = none →
        dateLtb ⟨1900, 1, 1⟩ (l.get ⟨j, hj⟩).key_date = true →
        j < i := by
  constructor
  · intro x hx
    unfold MediaItem.key_date
    rw [hx]
  · intro env l hrun i j hi hj hundated hdated
    obtain ⟨_, _, _, anime, manga, _, _, hl⟩ := runModel_finished hrun
    have hsorted : l.Pairwise (fun a b => dateLeb b.key_date a.key_date = true) := by
      subst hl
      exact (sortItems_pairwise _).imp (fun hab => itemSortLeb_key_date hab)
    have hkey : (l.get ⟨i, hi⟩).key_date = ⟨1900, 1, 1⟩ := by
      unfold MediaItem.key_date
      rw [hundated]
    by_contra hcon
    push_neg at hcon
    rcases Nat.lt_or_ge i j with hij | hij
    · have hpair := List.pairwise_iff_get.mp hsorted ⟨i, hi⟩ ⟨j, hj⟩ hij
      rw [hkey, dateLeb_iff_not_gt] at hpair
      rw [hpair] at hdated
      exact Bool.false_ne_true hdated
    · have hji : i = j := Nat.le_antisymm hcon hij
      subst hji
      rw [hkey] at hdated
      rw [dateLtb_irrefl] at hdated
      exact Bool.false_ne_true hdated

/-- Witness for C9: in the run at `demoEnv` the undated entry sits at index
2, after the dated entries. -/
theorem C9_witness :
    ((mediaToItem "ANIME" apiGamma).start_date = none ∧
      (mediaToItem "ANIME" apiGamma).key_date = ⟨1900, 1, 1⟩) ∧
      (runModel demoEnv = some (RunEmit.finished demoList) ∧ (0 : Nat) < 2) :=
  ⟨⟨by decide, C9_undated_last.1 (mediaToItem "ANIME" apiGamma) (by decide)⟩,
    ⟨by decide, C9_undated_last.2 demoEnv demoList (by decide) 2 0
      (by decide) (by decide) (by decide) (by decide)⟩⟩

/-- C10: every item of the emitted list is the last occurrence, in
anime-then-manga input order, of its (media_type, id) key. -/
theorem C10_last_occurrence (env : RunEnv) (l anime manga : List MediaItem)
    (x : MediaItem)
    (hA : fetch_new "ANIME" env.animeResp = Except.ok anime)
    (hM : fetch_new "MANGA" env.mangaResp = Except.ok manga)
    (h : runModel env = some (RunEmit.finished l)) (hx : x ∈ l) :
    lastWithKey (itemKey x) (anime ++ manga) = some x := by
  obtain ⟨_, _, _, anime2, manga2, hA2, hM2, hl⟩ := runModel_finished h
  rw [hA] at hA2
  rw [hM] at hM2
  cases hA2
  cases hM2
  subst hl
  exact dedupItems_last _ x ((sortItems_perm _).mem_iff.mp hx)

/-- Witness for C10: of the two MANGA entries with id 2 fed to the dedup of
`demoEnv`, the emitted one is the later occurrence `apiBeta2`. -/
theorem C10_witness :
    fetch_new "ANIME" demoEnv.animeResp = Except.ok demoAnime ∧
      fetch_new "MANGA" demoEnv.mangaResp = Except.ok demoManga ∧
      runModel demoEnv = some (RunEmit.finished demoList) ∧
      mediaToItem "MANGA" apiBeta2 ∈ demoList ∧
      lastWithKey (itemKey (mediaToItem "MANGA" apiBeta2))
        (demoAnime ++ demoManga) = some (mediaToItem "MANGA" apiBeta2) :=
  ⟨rfl, rfl, by decide, by decide,
    C10_last_occurrence demoEnv demoList demoAnime demoManga
      (mediaToItem "MANGA" apiBeta2) rfl rfl (by decide)
      (by decide)⟩
